import Mathlib

/-!
Shallow embedding of the media search aggregator (`src/utils/fetchMedia.ts`,
the `fetchMedia` function) and of the byte-size probe (`fetchSize` in
`src/app/search/page.tsx`).

Modelling conventions:
* JavaScript strings are Lean `String`s; the JS string operations used by the
  code (`toLowerCase`, `trim`, `split`, `includes`, `join`, `startsWith`,
  `localeCompare`) are modelled as executable functions on the underlying
  character lists.  `toLowerCase` is modelled as per-character ASCII lowering
  and `localeCompare` as code-point comparison, which agree with JS on the
  ASCII data handled here.
* Each provider HTTP call is abstracted to an oracle in an `Env` record: the
  call either fails (`Except.error msg`, covering both a thrown transport
  error and a non-ok status whose error text was wrapped and thrown) or
  returns the parsed JSON body.  The set of HTTP requests actually issued is
  recorded as a list of `HttpCall` tags.
* JS `undefined`-able fields become `Option`; the JS falsy coalescing
  `x || d` on strings/lists/numbers is modelled by explicit helpers
  (`""`, missing, and `0` are falsy).
* `Array.prototype.sort` (stable per ES2019) is modelled by the stable
  insertion sort `jsSort` with the boolean predicate
  `le a b ↔ comparator a b ≤ 0`.
* The mutable per-media-type Seen-ID `Set`s and the insertion-ordered
  deduplication `Map` are modelled by insertion-ordered lists of keys.
-/

namespace MediaSearch

/-- Boolean check that the first character list is a leading segment of the
second (used to model JS `String.prototype.includes` / `startsWith`). -/
def leadsChars : List Char → List Char → Bool
  | [], _ => true
  | _ :: _, [] => false
  | a :: as, b :: bs => a == b && leadsChars as bs

/-- Boolean check that `needle` occurs contiguously inside `hay`;
model of JS `hay.includes(needle)`. -/
def isSubChars : List Char → List Char → Bool
  | needle, [] => needle.isEmpty
  | needle, c :: t => leadsChars needle (c :: t) || isSubChars needle t

/-- Model of JS `hay.includes(needle)`. -/
def jsIncludes (hay needle : String) : Bool :=
  isSubChars needle.data hay.data

/-- Model of JS `s.startsWith(p)`. -/
def jsStartsWith (s p : String) : Bool :=
  leadsChars p.data s.data

/-- Model of JS `s.toLowerCase()` (ASCII). -/
def jsToLower (s : String) : String :=
  ⟨s.data.map Char.toLower⟩

/-- Drop whitespace from both ends of a character list. -/
def trimChars (l : List Char) : List Char :=
  ((l.dropWhile Char.isWhitespace).reverse.dropWhile Char.isWhitespace).reverse

/-- Model of JS `s.trim()`. -/
def jsTrim (s : String) : String :=
  ⟨trimChars s.data⟩

/-- The maximal whitespace-free runs of a character list, in order; model of
JS `s.split(/\s+/).filter(t => t)` (empty fragments removed). -/
def wsTokens : List Char → List (List Char)
  | [] => []
  | c :: t =>
    let rest := wsTokens t
    if c.isWhitespace then rest
    else
      match t with
      | [] => [[c]]
      | c' :: _ =>
        if c'.isWhitespace then [c] :: rest
        else
          match rest with
          | [] => [[c]]
          | tok :: toks => (c :: tok) :: toks

/-- Split a character list at every occurrence of `sep`; model of JS
`s.split(sep)` for a one-character separator (`"".split(sep)` is `[""]`). -/
def splitOnChar (sep : Char) : List Char → List (List Char)
  | [] => [[]]
  | c :: t =>
    let rest := splitOnChar sep t
    if c == sep then [] :: rest
    else
      match rest with
      | [] => [[c]]
      | tok :: toks => (c :: tok) :: toks

/-- Model of JS `arr.join(' ')`. -/
def jsJoinSpace : List String → String
  | [] => ""
  | [a] => a
  | a :: rest => a ++ " " ++ jsJoinSpace rest

/-- Model of JS `x || d` for an optional string (`undefined` and `""` are
falsy). -/
def jsOrStr : Option String → String → String
  | none, d => d
  | some s, d => if s = "" then d else s

/-- Model of JS `x || d` for an optional list (`undefined` is falsy, any
array — even empty — is truthy). -/
def jsList {α : Type} : Option (List α) → List α
  | none => []
  | some l => l

/-- Model of JS `n || d` for a number field that is absent or a non-negative
integer (`undefined` and `0` are falsy and collapse to the same branch). -/
def jsOrNat (n d : Nat) : Nat :=
  if n = 0 then d else n

/-- Model of `s.split(',').map(t => t.trim())` applied to an optional string
with the `|| []` fallback, as in the Pixabay tag mapping. -/
def jsSplitCommaTrim : Option String → List String
  | none => []
  | some s => (splitOnChar ',' s.data).map fun cs => ⟨trimChars cs⟩

/-- `excludeWords.toLowerCase().split(/\s+/).filter(term => term)` from the
exclusion-filter blocks of `fetchMedia`. -/
def excludeTerms (excludeWords : String) : List String :=
  (wsTokens (jsToLower excludeWords).data).map fun cs => ⟨cs⟩

/-- Provenance tag of a unified result item (`source` field). -/
inductive Source
  | openverse
  | pixabay
deriving DecidableEq, Repr

/-- The string the source tag renders to in keys and comparisons. -/
def Source.str : Source → String
  | .openverse => "openverse"
  | .pixabay => "pixabay"

/-- The unified result record `MediaResult` of `fetchMedia.ts`. -/
structure MediaResult where
  id : String
  title : String
  url : String
  thumbnail : String
  videoURL : Option String := none
  creator : Option String := none
  license : String
  source : Source
  tags : List String := []
  largeImageURL : Option String := none
  previewURL : Option String := none
  size : Option Nat := none
deriving DecidableEq, Repr

/-- The deduplication identity `` `${item.source}-${item.id}` ``. -/
def compositeKey (m : MediaResult) : String :=
  m.source.str ++ "-" ++ m.id

/-- `{ items, total }` returned by `fetchMedia`. -/
structure FetchResult where
  items : List MediaResult
  total : Nat
deriving DecidableEq, Repr

/-- An Openverse result item as consumed by the mapping code (tags already
projected to their `name` strings; `Option` marks fields that may be absent
or empty). -/
structure OpenverseItem where
  id : String
  title : Option String := none
  url : Option String := none
  thumbnail : Option String := none
  creator : Option String := none
  license : Option String := none
  tags : Option (List String) := none
deriving DecidableEq, Repr

/-- A Pixabay image hit as consumed by the mapping code. -/
structure PixabayItem where
  id : String
  tags : Option String := none
  pageURL : Option String := none
  webformatURL : Option String := none
  user : Option String := none
  largeImageURL : Option String := none
  previewURL : Option String := none
deriving DecidableEq, Repr

/-- A Pixabay video hit as consumed by the mapping code (`videos.medium.url`,
`videos.small.url` and `videos.tiny.thumbnail` flattened through the
optional chaining). -/
structure PixabayVideoItem where
  id : String
  tags : Option String := none
  pageURL : Option String := none
  user : Option String := none
  mediumURL : Option String := none
  smallURL : Option String := none
  tinyThumbnail : Option String := none
deriving DecidableEq, Repr

/-- Parsed body of an Openverse search response (`results`, `result_count`;
a missing or zero `result_count` behaves identically under `||`). -/
structure OpenverseData where
  results : Option (List OpenverseItem) := none
  result_count : Nat := 0
deriving DecidableEq, Repr

/-- Parsed body of a Pixabay image search response. -/
structure PixabayData where
  hits : Option (List PixabayItem) := none
  totalHits : Nat := 0
deriving DecidableEq, Repr

/-- Parsed body of a Pixabay video search response. -/
structure PixabayVideoData where
  hits : Option (List PixabayVideoItem) := none
  totalHits : Nat := 0
deriving DecidableEq, Repr

/-- The Openverse image mapping of `fetchMedia`. -/
def mapOpenverseImage (it : OpenverseItem) : MediaResult :=
  { id := it.id
    title := jsOrStr it.title "Untitled"
    url := jsOrStr it.url ""
    thumbnail := jsOrStr it.thumbnail (jsOrStr it.url "")
    creator := some (jsOrStr it.creator "Unknown")
    license := jsOrStr it.license "Unknown"
    source := .openverse
    tags := jsList it.tags
    size := none }

/-- The Openverse audio mapping of `fetchMedia` (placeholder thumbnail). -/
def mapOpenverseAudio (it : OpenverseItem) : MediaResult :=
  { id := it.id
    title := jsOrStr it.title "Untitled"
    url := jsOrStr it.url ""
    thumbnail := jsOrStr it.thumbnail "/placeholder-audio.png"
    creator := some (jsOrStr it.creator "Unknown")
    license := jsOrStr it.license "Unknown"
    source := .openverse
    tags := jsList it.tags
    size := none }

/-- The Pixabay image mapping of `fetchMedia`. -/
def mapPixabayImage (it : PixabayItem) : MediaResult :=
  { id := it.id
    title := jsOrStr it.tags "Untitled"
    url := jsOrStr it.pageURL ""
    thumbnail := jsOrStr it.webformatURL ""
    creator := some (jsOrStr it.user "Unknown")
    license := "Pixabay License"
    source := .pixabay
    tags := jsSplitCommaTrim it.tags
    largeImageURL := it.largeImageURL
    previewURL := it.previewURL
    size := none }

/-- The Pixabay video mapping of `fetchMedia`. -/
def mapPixabayVideo (it : PixabayVideoItem) : MediaResult :=
  { id := it.id
    title := jsOrStr it.tags "Untitled"
    url := jsOrStr it.pageURL ""
    thumbnail := jsOrStr it.tinyThumbnail "/placeholder-video.png"
    videoURL := some (jsOrStr it.mediumURL (jsOrStr it.smallURL ""))
    creator := some (jsOrStr it.user "Unknown")
    license := "Pixabay License"
    source := .pixabay
    tags := jsSplitCommaTrim it.tags
    size := none }

/-- Identity of an HTTP request issued by `fetchMedia`. -/
inductive HttpCall
  | openverseImages
  | pixabayImages
  | openverseAudio
  | pixabayVideos
deriving DecidableEq, Repr

/-- Oracle for the environment of one `fetchMedia` call: configuration keys
and the outcome of each provider request, were it to be issued. -/
structure Env where
  openverseToken : Option String := none
  pixabayApiKey : Option String := none
  openverseImagesResp : Except String OpenverseData := .error ""
  pixabayImagesResp : Except String PixabayData := .error ""
  openverseAudioResp : Except String OpenverseData := .error ""
  pixabayVideosResp : Except String PixabayVideoData := .error ""

/-- The three per-media-type Seen-ID sets (insertion-ordered). -/
structure Seen where
  images : List String := []
  audio : List String := []
  videos : List String := []
deriving DecidableEq, Repr

/-- `Set.prototype.add`: append the key unless already present. -/
def addSeen (s : List String) (k : String) : List String :=
  if k ∈ s then s else s ++ [k]

/-- Arguments of one `fetchMedia` call (network-only parameters like `page`
and `exactPhrase` shape the outgoing URL but not the oracle responses). -/
inductive MediaType
  | images
  | audio
  | videos
deriving DecidableEq, Repr

inductive SortBy
  | relevance
  | size
  | titleAsc
  | titleDesc
  | sourceAsc
  | sourceDesc
deriving DecidableEq, Repr

inductive SourceFilter
  | all
  | openverse
  | pixabay
deriving DecidableEq, Repr

structure Args where
  type : MediaType
  page : Nat := 1
  query : String
  exactPhrase : String := ""
  excludeWords : String := ""
  licenseFilter : String := "all"
  sortBy : SortBy := .relevance
  sourceFilter : SourceFilter := .all
deriving DecidableEq, Repr

/-- Everything observable about one `fetchMedia` call: the returned or thrown
value, the HTTP requests issued, and the Seen-ID sets afterwards. -/
structure FetchOutput where
  result : Except String FetchResult
  calls : List HttpCall
  seen : Seen

/-- The two exclusion-filter statements
(`if (excludeWords.trim()) { ... allItems.filter(...) }`). -/
def applyExclusionFilter (excludeWords : String) (items : List MediaResult) :
    List MediaResult :=
  if jsTrim excludeWords = "" then items
  else
    items.filter fun item =>
      ! (excludeTerms excludeWords).any fun term =>
          jsIncludes (jsToLower item.title ++ " " ++ jsToLower (jsJoinSpace item.tags)) term

/-- The license-filter statement of the images and audio branches
(`if (licenseFilter !== 'all' && sourceFilter === 'openverse') ...`). -/
def applyLicenseFilter (licenseFilter : String) (sourceFilter : SourceFilter)
    (items : List MediaResult) : List MediaResult :=
  if licenseFilter ≠ "all" ∧ sourceFilter = .openverse then
    items.filter fun item =>
      item.source == .openverse && item.license == licenseFilter
  else items

/-- Lexicographic code-point comparison `a ≤ b` on character lists; model of
`a.localeCompare(b) <= 0` for the ASCII data handled here. -/
def leChars : List Char → List Char → Bool
  | [], _ => true
  | _ :: _, [] => false
  | a :: as, b :: bs => if a = b then leChars as bs else decide (a < b)

/-- `a.localeCompare(b) <= 0`, modelled as code-point comparison. -/
def jsStrLe (a b : String) : Bool :=
  leChars a.data b.data

/-- Insert `x` into `l` before the first element `y` with `le x y`;
building block of the stable sort below. -/
def insertLe {α : Type} (le : α → α → Bool) (x : α) : List α → List α
  | [] => [x]
  | y :: ys => if le x y then x :: y :: ys else y :: insertLe le x ys

/-- Stable sort by the total preorder `le`; model of ES2019
`Array.prototype.sort` with a comparator `cmp`, taking `le a b ↔ cmp a b ≤ 0`
(`a` may sort before `b` iff `le a b`; ties keep the original order). -/
def jsSort {α : Type} (le : α → α → Bool) : List α → List α
  | [] => []
  | x :: xs => insertLe le x (jsSort le xs)

/-- The sort dispatch of the images branch.  Each JS comparator is rendered
as its stable-sort predicate; note that the `source-asc` comparator of the
source compares `a.source` with itself (`a.source.localeCompare(a.source)`),
and `localeCompare` is modelled as code-point comparison. -/
def sortImagesItems (sortBy : SortBy) (items : List MediaResult) :
    List MediaResult :=
  match sortBy with
  | .size => jsSort (fun a b => decide (b.size.getD 0 ≤ a.size.getD 0)) items
  | .titleAsc => jsSort (fun a b => jsStrLe a.title b.title) items
  | .titleDesc => jsSort (fun a b => jsStrLe b.title a.title) items
  | .sourceAsc => jsSort (fun a _ => jsStrLe a.source.str a.source.str) items
  | .sourceDesc => jsSort (fun a b => jsStrLe b.source.str a.source.str) items
  | .relevance => items

/-- The sort dispatch of the audio and videos branches (no source sorts). -/
def sortPlainItems (sortBy : SortBy) (items : List MediaResult) :
    List MediaResult :=
  match sortBy with
  | .size => jsSort (fun a b => decide (b.size.getD 0 ≤ a.size.getD 0)) items
  | .titleAsc => jsSort (fun a b => jsStrLe a.title b.title) items
  | .titleDesc => jsSort (fun a b => jsStrLe b.title a.title) items
  | _ => items

/-- The `forEach` deduplication loop: first occurrence of each composite key
wins, every emitted key is added to the Seen-ID set.  The accumulator
`mapKeys` holds the keys already in the `Map`. -/
def dedupeGo : List MediaResult → List String → List String →
    List MediaResult × List String
  | [], _, seen => ([], seen)
  | m :: rest, mapKeys, seen =>
    let key := compositeKey m
    if key ∈ mapKeys then dedupeGo rest mapKeys seen
    else
      let res := dedupeGo rest (key :: mapKeys) (addSeen seen key)
      (m :: res.1, res.2)

/-- Deduplicate against a fresh `Map`, threading the Seen-ID set. -/
def dedupe (items : List MediaResult) (seen : List String) :
    List MediaResult × List String :=
  dedupeGo items [] seen

/-- The Openverse block of the images branch: executed when `sourceFilter`
is `all` or `openverse`; a failure is rethrown only when `sourceFilter` is
exactly `openverse`, otherwise it contributes no items and no count. -/
def openverseImagesPart (env : Env) (sf : SourceFilter) :
    Except String (List MediaResult × Nat) × List HttpCall :=
  if sf = .all ∨ sf = .openverse then
    match env.openverseImagesResp with
    | .ok d =>
      let imgs := (jsList d.results).map mapOpenverseImage
      (.ok (imgs, jsOrNat d.result_count imgs.length), [.openverseImages])
    | .error e =>
      (if sf = .openverse then .error e else .ok ([], 0), [.openverseImages])
  else (.ok ([], 0), [])

/-- The Pixabay block of the images branch: executed when `sourceFilter` is
`all` or `pixabay`; an undefined or empty API key throws only when
`sourceFilter` is exactly `pixabay` and otherwise skips the request
(`else` branch); an HTTP failure is rethrown only when `sourceFilter` is
exactly `pixabay`. -/
def pixabayImagesPart (env : Env) (sf : SourceFilter) :
    Except String (List MediaResult × Nat) × List HttpCall :=
  if sf = .all ∨ sf = .pixabay then
    if env.pixabayApiKey = none ∨ env.pixabayApiKey = some "" then
      (if sf = .pixabay then .error "Pixabay API key is not set" else .ok ([], 0), [])
    else
      match env.pixabayImagesResp with
      | .ok d =>
        let imgs := (jsList d.hits).map mapPixabayImage
        (.ok (imgs, jsOrNat d.totalHits imgs.length), [.pixabayImages])
      | .error e =>
        (if sf = .pixabay then .error e else .ok ([], 0), [.pixabayImages])
  else (.ok ([], 0), [])

/-- The images branch of `fetchMedia`: both provider blocks, then exclusion
filter, license filter, sort, and deduplication into the images Seen-ID
set.  `total` replays `total = 0; total = max(total, ...)` per block. -/
def fetchImages (env : Env) (a : Args) (seen : Seen) : FetchOutput :=
  match openverseImagesPart env a.sourceFilter with
  | (.error e, calls) => { result := .error e, calls := calls, seen := seen }
  | (.ok (ovItems, ovTotal), ovCalls) =>
    match pixabayImagesPart env a.sourceFilter with
    | (.error e, pixCalls) =>
      { result := .error e, calls := ovCalls ++ pixCalls, seen := seen }
    | (.ok (pixItems, pixTotal), pixCalls) =>
      let total := Nat.max (Nat.max 0 ovTotal) pixTotal
      let allItems := ovItems ++ pixItems
      let l1 := applyExclusionFilter a.excludeWords allItems
      let l2 := applyLicenseFilter a.licenseFilter a.sourceFilter l1
      let l3 := sortImagesItems a.sortBy l2
      let res := dedupe l3 seen.images
      { result := .ok { items := res.1, total := total }
        calls := ovCalls ++ pixCalls
        seen := { seen with images := res.2 } }

/-- The audio branch of `fetchMedia`: early empty result when the source
filter excludes Openverse; any Openverse failure is rethrown
unconditionally (the catch block always rethrows). -/
def fetchAudio (env : Env) (a : Args) (seen : Seen) : FetchOutput :=
  if a.sourceFilter = .pixabay then
    { result := .ok { items := [], total := 0 }, calls := [], seen := seen }
  else
    match env.openverseAudioResp with
    | .error e => { result := .error e, calls := [.openverseAudio], seen := seen }
    | .ok d =>
      let items0 := (jsList d.results).map mapOpenverseAudio
      let l1 := applyExclusionFilter a.excludeWords items0
      let l2 := applyLicenseFilter a.licenseFilter a.sourceFilter l1
      let l3 := sortPlainItems a.sortBy l2
      let res := dedupe l3 seen.audio
      { result := .ok { items := res.1, total := jsOrNat d.result_count res.1.length }
        calls := [.openverseAudio]
        seen := { seen with audio := res.2 } }

/-- The videos branch of `fetchMedia`: early empty result when the source
filter excludes Pixabay; a missing or empty API key throws only when
`sourceFilter` is exactly `pixabay` — otherwise the request is still issued
(there is no `else` around the key check in this branch); any HTTP failure
is rethrown unconditionally; no license filter. -/
def fetchVideos (env : Env) (a : Args) (seen : Seen) : FetchOutput :=
  if a.sourceFilter = .openverse then
    { result := .ok { items := [], total := 0 }, calls := [], seen := seen }
  else if (env.pixabayApiKey = none ∨ env.pixabayApiKey = some "") ∧
      a.sourceFilter = .pixabay then
    { result := .error "Pixabay API key is not set", calls := [], seen := seen }
  else
    match env.pixabayVideosResp with
    | .error e => { result := .error e, calls := [.pixabayVideos], seen := seen }
    | .ok d =>
      let items0 := (jsList d.hits).map mapPixabayVideo
      let l1 := applyExclusionFilter a.excludeWords items0
      let l3 := sortPlainItems a.sortBy l1
      let res := dedupe l3 seen.videos
      { result := .ok { items := res.1, total := jsOrNat d.totalHits res.1.length }
        calls := [.pixabayVideos]
        seen := { seen with videos := res.2 } }

/-- `fetchMedia` from `src/utils/fetchMedia.ts`: trims the query,
short-circuits on an empty query, otherwise dispatches on the media type.
(`exactPhrase` and `page` only shape the outgoing URLs, which the oracle
abstracts, so they do not appear past this point.) -/
def fetchMedia (env : Env) (a : Args) (seen : Seen) : FetchOutput :=
  if jsTrim a.query = "" then
    { result := .ok { items := [], total := 0 }, calls := [], seen := seen }
  else
    match a.type with
    | .images => fetchImages env a seen
    | .audio => fetchAudio env a seen
    | .videos => fetchVideos env a seen

/-- Model of JS `parseInt(s, 10)` restricted to the non-negative header
values occurring here: leading whitespace skipped, leading digit run parsed;
an unparseable string (JS `NaN`) is collapsed to `none`. -/
def parseIntStr (s : String) : Option Nat :=
  let digits := ((trimChars s.data).takeWhile Char.isDigit)
  if digits.isEmpty then none
  else some (digits.foldl (fun n c => n * 10 + (c.toNat - 48)) 0)

/-- `headers.get(...)` followed by `size ? parseInt(size, 10) : undefined`
(a null or empty header yields `undefined`). -/
def jsHeaderParse : Option String → Option Nat
  | none => none
  | some s => if s = "" then none else parseIntStr s

/-- The regex `/\/(\d+)$/` applied to a `Content-Range` header: a trailing
digit run immediately preceded by a slash. -/
def parseContentRange (s : String) : Option Nat :=
  let rev := s.data.reverse
  let revDigits := rev.takeWhile Char.isDigit
  if revDigits.isEmpty then none
  else
    match rev.dropWhile Char.isDigit with
    | '/' :: _ =>
      some (revDigits.reverse.foldl (fun n c => n * 10 + (c.toNat - 48)) 0)
    | _ => none

/-- Outcome of the HEAD request of the size probe (`none` at the outer level
models a thrown request). -/
structure HeadResp where
  ok : Bool
  contentLength : Option String := none
deriving DecidableEq, Repr

/-- Outcome of the ranged GET request of the size probe. -/
structure RangeResp where
  ok : Bool
  contentRange : Option String := none
  contentLength : Option String := none
deriving DecidableEq, Repr

/-- Oracle for the two requests a `fetchSize` call may issue. -/
structure ProbeEnv where
  headResp : Option HeadResp := none
  rangeResp : Option RangeResp := none
deriving DecidableEq, Repr

/-- The ranged-GET fallback phase of `fetchSize`: on a successful response,
a truthy `Content-Range` header is parsed with `/\/(\d+)$/`, otherwise
`Content-Length` is used; any failure yields `undefined`. -/
def fetchSizeRange (env : ProbeEnv) : Option Nat :=
  match env.rangeResp with
  | none => none
  | some g =>
    if g.ok then
      match g.contentRange with
      | some cr => if cr = "" then jsHeaderParse g.contentLength else parseContentRange cr
      | none => jsHeaderParse g.contentLength
    else none

/-- `fetchSize` from `src/app/search/page.tsx`: reject non-`http` URLs, then
try a HEAD request for `Content-Length` (a successful HEAD returns even when
the header is absent), falling back to a ranged GET. -/
def fetchSize (env : ProbeEnv) (url : String) : Option Nat :=
  if url = "" ∨ jsStartsWith url "http" = false then none
  else
    match env.headResp with
    | some h => if h.ok then jsHeaderParse h.contentLength else fetchSizeRange env
    | none => fetchSizeRange env

/-! ### Lemmas about the stable sort -/

theorem mem_insertLe {α : Type} (le : α → α → Bool) (x : α) (l : List α)
    (z : α) : z ∈ insertLe le x l ↔ z = x ∨ z ∈ l := by
  induction l with
  | nil => simp [insertLe]
  | cons y ys ih =>
    by_cases h : le x y = true
    · simp [insertLe, h]
    · simp only [insertLe, h, if_neg, Bool.false_eq_true, ite_false,
        List.mem_cons, ih]
      tauto

theorem insertLe_perm {α : Type} (le : α → α → Bool) (x : α) (l : List α) :
    (insertLe le x l).Perm (x :: l) := by
  induction l with
  | nil => simp [insertLe]
  | cons y ys ih =>
    by_cases h : le x y = true
    · simp [insertLe, h]
    · simp only [insertLe, h, Bool.false_eq_true, ite_false]
      exact (ih.cons y).trans (List.Perm.swap x y ys)

theorem jsSort_perm {α : Type} (le : α → α → Bool) (l : List α) :
    (jsSort le l).Perm l := by
  induction l with
  | nil => simp [jsSort]
  | cons x xs ih =>
    exact (insertLe_perm le x (jsSort le xs)).trans (ih.cons x)

theorem mem_jsSort {α : Type} {le : α → α → Bool} {l : List α} {z : α} :
    z ∈ jsSort le l ↔ z ∈ l :=
  (jsSort_perm le l).mem_iff

theorem pairwise_insertLe {α : Type} {le : α → α → Bool}
    (htr : ∀ a b c, le a b = true → le b c = true → le a c = true)
    (hto : ∀ a b, le a b = true ∨ le b a = true)
    (x : α) {l : List α} (h : l.Pairwise fun a b => le a b = true) :
    (insertLe le x l).Pairwise fun a b => le a b = true := by
  induction l with
  | nil => simp [insertLe]
  | cons y ys ih =>
    obtain ⟨hy, hys⟩ := List.pairwise_cons.mp h
    by_cases hxy : le x y = true
    · simp only [insertLe, hxy, ite_true]
      refine List.pairwise_cons.mpr ⟨?_, h⟩
      intro z hz
      rcases List.mem_cons.mp hz with rfl | hz'
      · exact hxy
      · exact htr x y z hxy (hy z hz')
    · have hyx : le y x = true := (hto x y).resolve_left hxy
      simp only [insertLe, hxy, Bool.false_eq_true, ite_false]
      refine List.pairwise_cons.mpr ⟨?_, ih hys⟩
      intro z hz
      rcases (mem_insertLe le x ys z).mp hz with rfl | hz'
      · exact hyx
      · exact hy z hz'

theorem jsSort_pairwise {α : Type} {le : α → α → Bool}
    (htr : ∀ a b c, le a b = true → le b c = true → le a c = true)
    (hto : ∀ a b, le a b = true ∨ le b a = true) (l : List α) :
    (jsSort le l).Pairwise fun a b => le a b = true := by
  induction l with
  | nil => simp [jsSort]
  | cons x xs ih => exact pairwise_insertLe htr hto x ih

theorem jsSort_of_pairwise {α : Type} {le : α → α → Bool} {l : List α}
    (h : l.Pairwise fun a b => le a b = true) : jsSort le l = l := by
  induction l with
  | nil => rfl
  | cons x xs ih =>
    obtain ⟨hx, hxs⟩ := List.pairwise_cons.mp h
    rw [jsSort, ih hxs]
    cases xs with
    | nil => rfl
    | cons y ys => simp [insertLe, hx y (List.mem_cons_self y ys)]

theorem sortImagesItems_perm (sb : SortBy) (l : List MediaResult) :
    (sortImagesItems sb l).Perm l := by
  cases sb <;>
    first
      | exact jsSort_perm _ _
      | exact List.Perm.refl _

theorem mem_sortImagesItems {sb : SortBy} {l : List MediaResult}
    {z : MediaResult} : z ∈ sortImagesItems sb l ↔ z ∈ l :=
  (sortImagesItems_perm sb l).mem_iff

theorem sortPlainItems_perm (sb : SortBy) (l : List MediaResult) :
    (sortPlainItems sb l).Perm l := by
  cases sb <;>
    first
      | exact jsSort_perm _ _
      | exact List.Perm.refl _

theorem mem_sortPlainItems {sb : SortBy} {l : List MediaResult}
    {z : MediaResult} : z ∈ sortPlainItems sb l ↔ z ∈ l :=
  (sortPlainItems_perm sb l).mem_iff

/-! ### Lemmas about the filters -/

theorem applyExclusionFilter_sublist (ew : String) (l : List MediaResult) :
    (applyExclusionFilter ew l).Sublist l := by
  unfold applyExclusionFilter
  split
  · exact List.Sublist.refl l
  · exact List.filter_sublist l

theorem applyLicenseFilter_sublist (lf : String) (sf : SourceFilter)
    (l : List MediaResult) : (applyLicenseFilter lf sf l).Sublist l := by
  unfold applyLicenseFilter
  split
  · exact List.filter_sublist l
  · exact List.Sublist.refl l

theorem applyExclusionFilter_of_trim_empty {ew : String}
    (h : jsTrim ew = "") (l : List MediaResult) :
    applyExclusionFilter ew l = l := by
  simp [applyExclusionFilter, h]

theorem applyLicenseFilter_of_not_openverse {lf : String} {sf : SourceFilter}
    (h : sf ≠ .openverse) (l : List MediaResult) :
    applyLicenseFilter lf sf l = l := by
  unfold applyLicenseFilter
  rw [if_neg]
  rintro ⟨-, h2⟩
  exact h h2

/-! ### Lemmas about the deduplication loop -/

theorem mem_addSeen_self (s : List String) (k : String) : k ∈ addSeen s k := by
  unfold addSeen
  split
  · assumption
  · simp

theorem mem_addSeen_of_mem {s : List String} {k : String} (k' : String)
    (h : k ∈ s) : k ∈ addSeen s k' := by
  unfold addSeen
  split
  · exact h
  · simp [h]

theorem dedupeGo_fst_sublist :
    ∀ (l : List MediaResult) (ks s : List String),
      (dedupeGo l ks s).1.Sublist l := by
  intro l
  induction l with
  | nil => intro ks s; simp [dedupeGo]
  | cons m rest ih =>
    intro ks s
    by_cases h : compositeKey m ∈ ks
    · simp only [dedupeGo, if_pos h]
      exact (ih ks s).trans (List.sublist_cons_self m rest)
    · simp only [dedupeGo, if_neg h]
      exact (ih ((compositeKey m) :: ks) (addSeen s (compositeKey m))).cons₂ m

theorem dedupeGo_keys :
    ∀ (l : List MediaResult) (ks s : List String),
      ((dedupeGo l ks s).1.map compositeKey).Nodup ∧
        ∀ k ∈ (dedupeGo l ks s).1.map compositeKey, k ∉ ks := by
  intro l
  induction l with
  | nil => intro ks s; simp [dedupeGo]
  | cons m rest ih =>
    intro ks s
    by_cases h : compositeKey m ∈ ks
    · simp only [dedupeGo, if_pos h]
      exact ih ks s
    · simp only [dedupeGo, if_neg h]
      obtain ⟨hnd, hks⟩ := ih ((compositeKey m) :: ks) (addSeen s (compositeKey m))
      refine ⟨?_, ?_⟩
      · rw [List.map_cons, List.nodup_cons]
        refine ⟨fun hmem => ?_, hnd⟩
        exact (hks _ hmem) (List.mem_cons_self _ _)
      · intro k hk
        rw [List.map_cons, List.mem_cons] at hk
        rcases hk with rfl | hk'
        · exact h
        · intro hkks
          exact (hks k hk') (List.mem_cons_of_mem _ hkks)

theorem dedupeGo_seen_mono :
    ∀ (l : List MediaResult) (ks s : List String) (k : String),
      k ∈ s → k ∈ (dedupeGo l ks s).2 := by
  intro l
  induction l with
  | nil => intro ks s k hk; simpa [dedupeGo] using hk
  | cons m rest ih =>
    intro ks s k hk
    by_cases h : compositeKey m ∈ ks
    · simp only [dedupeGo, if_pos h]
      exact ih ks s k hk
    · simp only [dedupeGo, if_neg h]
      exact ih _ _ k (mem_addSeen_of_mem _ hk)

theorem dedupeGo_key_mem_seen :
    ∀ (l : List MediaResult) (ks s : List String) (m : MediaResult),
      m ∈ (dedupeGo l ks s).1 → compositeKey m ∈ (dedupeGo l ks s).2 := by
  intro l
  induction l with
  | nil => intro ks s m hm; simp [dedupeGo] at hm
  | cons m0 rest ih =>
    intro ks s m hm
    by_cases h : compositeKey m0 ∈ ks
    · simp only [dedupeGo, if_pos h] at hm ⊢
      exact ih ks s m hm
    · simp only [dedupeGo, if_neg h] at hm ⊢
      rcases List.mem_cons.mp hm with rfl | hm'
      · exact dedupeGo_seen_mono rest _ _ _ (mem_addSeen_self _ _)
      · exact ih _ _ m hm'

theorem dedupeGo_of_nodup :
    ∀ (l : List MediaResult) (ks s : List String),
      (l.map compositeKey).Nodup → (∀ m ∈ l, compositeKey m ∉ ks) →
        (dedupeGo l ks s).1 = l := by
  intro l
  induction l with
  | nil => intro ks s _ _; rfl
  | cons m rest ih =>
    intro ks s hnd hks
    have h : compositeKey m ∉ ks := hks m (List.mem_cons_self m rest)
    simp only [dedupeGo, if_neg h]
    rw [List.map_cons, List.nodup_cons] at hnd
    rw [ih ((compositeKey m) :: ks) (addSeen s (compositeKey m)) hnd.2 ?_]
    intro m' hm'
    rw [List.mem_cons]
    rintro (heq | hin)
    · exact hnd.1 (heq ▸ List.mem_map_of_mem compositeKey hm')
    · exact hks m' (List.mem_cons_of_mem m hm') hin

/-! ### Shape lemmas for the branches of fetchMedia -/

theorem fetchMedia_eq_cases (env : Env) (a : Args) (seen : Seen) :
    (jsTrim a.query = "" ∧
      fetchMedia env a seen =
        { result := .ok { items := [], total := 0 }, calls := [], seen := seen }) ∨
    (jsTrim a.query ≠ "" ∧
      ((a.type = .images ∧ fetchMedia env a seen = fetchImages env a seen) ∨
       (a.type = .audio ∧ fetchMedia env a seen = fetchAudio env a seen) ∨
       (a.type = .videos ∧ fetchMedia env a seen = fetchVideos env a seen))) := by
  by_cases hq : jsTrim a.query = ""
  · exact .inl ⟨hq, by simp [fetchMedia, hq]⟩
  · refine .inr ⟨hq, ?_⟩
    cases ht : a.type
    · exact .inl ⟨rfl, by simp [fetchMedia, hq, ht]⟩
    · exact .inr (.inl ⟨rfl, by simp [fetchMedia, hq, ht]⟩)
    · exact .inr (.inr ⟨rfl, by simp [fetchMedia, hq, ht]⟩)

theorem fetchImages_eq (env : Env) (a : Args) (seen : Seen) :
    (∃ e calls, openverseImagesPart env a.sourceFilter = (.error e, calls) ∧
      fetchImages env a seen =
        { result := .error e, calls := calls, seen := seen }) ∨
    (∃ ovItems ovTotal ovCalls e pixCalls,
      openverseImagesPart env a.sourceFilter = (.ok (ovItems, ovTotal), ovCalls) ∧
      pixabayImagesPart env a.sourceFilter = (.error e, pixCalls) ∧
      fetchImages env a seen =
        { result := .error e, calls := ovCalls ++ pixCalls, seen := seen }) ∨
    (∃ ovItems ovTotal ovCalls pixItems pixTotal pixCalls,
      openverseImagesPart env a.sourceFilter = (.ok (ovItems, ovTotal), ovCalls) ∧
      pixabayImagesPart env a.sourceFilter = (.ok (pixItems, pixTotal), pixCalls) ∧
      fetchImages env a seen =
        { result := .ok
            { items := (dedupe (sortImagesItems a.sortBy
                (applyLicenseFilter a.licenseFilter a.sourceFilter
                  (applyExclusionFilter a.excludeWords (ovItems ++ pixItems))))
                seen.images).1
              total := Nat.max (Nat.max 0 ovTotal) pixTotal }
          calls := ovCalls ++ pixCalls
          seen := { seen with images := (dedupe (sortImagesItems a.sortBy
              (applyLicenseFilter a.licenseFilter a.sourceFilter
                (applyExclusionFilter a.excludeWords (ovItems ++ pixItems))))
              seen.images).2 } }) := by
  rcases hov : openverseImagesPart env a.sourceFilter with ⟨res1, calls1⟩
  cases res1 with
  | error e =>
    refine .inl ⟨e, calls1, rfl, ?_⟩
    unfold fetchImages
    rw [hov]
  | ok p1 =>
    rcases p1 with ⟨ovItems, ovTotal⟩
    rcases hpix : pixabayImagesPart env a.sourceFilter with ⟨res2, calls2⟩
    cases res2 with
    | error e =>
      refine .inr (.inl ⟨ovItems, ovTotal, calls1, e, calls2, rfl, rfl, ?_⟩)
      unfold fetchImages
      rw [hov, hpix]
    | ok p2 =>
      rcases p2 with ⟨pixItems, pixTotal⟩
      refine .inr (.inr ⟨ovItems, ovTotal, calls1, pixItems, pixTotal, calls2,
        rfl, rfl, ?_⟩)
      unfold fetchImages
      rw [hov, hpix]

theorem fetchImages_ok_elim (env : Env) (a : Args) (seen : Seen)
    (r : FetchResult) (h : (fetchImages env a seen).result = .ok r) :
    ∃ ovItems ovTotal ovCalls pixItems pixTotal pixCalls,
      openverseImagesPart env a.sourceFilter = (.ok (ovItems, ovTotal), ovCalls) ∧
      pixabayImagesPart env a.sourceFilter = (.ok (pixItems, pixTotal), pixCalls) ∧
      r.items = (dedupe (sortImagesItems a.sortBy
          (applyLicenseFilter a.licenseFilter a.sourceFilter
            (applyExclusionFilter a.excludeWords (ovItems ++ pixItems))))
          seen.images).1 ∧
      r.total = Nat.max (Nat.max 0 ovTotal) pixTotal ∧
      (fetchImages env a seen).seen =
        { seen with images := (dedupe (sortImagesItems a.sortBy
            (applyLicenseFilter a.licenseFilter a.sourceFilter
              (applyExclusionFilter a.excludeWords (ovItems ++ pixItems))))
            seen.images).2 } ∧
      (fetchImages env a seen).calls = ovCalls ++ pixCalls := by
  rcases fetchImages_eq env a seen with ⟨e, calls, -, he⟩ |
    ⟨ovItems, ovTotal, ovCalls, e, pixCalls, -, -, he⟩ |
    ⟨ovItems, ovTotal, ovCalls, pixItems, pixTotal, pixCalls, h1, h2, he⟩
  · rw [he] at h
    simp at h
  · rw [he] at h
    simp at h
  · rw [he] at h
    simp only [Except.ok.injEq] at h
    exact ⟨ovItems, ovTotal, ovCalls, pixItems, pixTotal, pixCalls, h1, h2,
      by rw [← h], by rw [← h], by rw [he], by rw [he]⟩

theorem openverseImagesPart_all_ok (env : Env) :
    ∃ l t, openverseImagesPart env .all = (.ok (l, t), [.openverseImages]) := by
  unfold openverseImagesPart
  cases env.openverseImagesResp <;> simp

theorem pixabayImagesPart_all_ok (env : Env) :
    ∃ l t cs, pixabayImagesPart env .all = (.ok (l, t), cs) := by
  unfold pixabayImagesPart
  by_cases hk : env.pixabayApiKey = none ∨ env.pixabayApiKey = some ""
  · simp [hk]
  · cases env.pixabayImagesResp <;> simp [hk]

theorem fetchImages_all_ok (env : Env) (a : Args) (seen : Seen)
    (hsf : a.sourceFilter = .all) :
    ∃ r, (fetchImages env a seen).result = .ok r := by
  obtain ⟨lo, t0, h1⟩ := openverseImagesPart_all_ok env
  obtain ⟨lp, tp, cs, h2⟩ := pixabayImagesPart_all_ok env
  unfold fetchImages
  rw [hsf, h1, h2]
  exact ⟨_, rfl⟩

theorem leChars_refl (l : List Char) : leChars l l = true := by
  induction l with
  | nil => rfl
  | cons c t ih => simp [leChars, ih]

theorem fetchAudio_ok_elim (env : Env) (a : Args) (seen : Seen)
    (r : FetchResult) (h : (fetchAudio env a seen).result = .ok r) :
    (a.sourceFilter = .pixabay ∧ r = { items := [], total := 0 }) ∨
    (a.sourceFilter ≠ .pixabay ∧ ∃ d,
      env.openverseAudioResp = .ok d ∧
      r.items = (dedupe (sortPlainItems a.sortBy
          (applyLicenseFilter a.licenseFilter a.sourceFilter
            (applyExclusionFilter a.excludeWords
              ((jsList d.results).map mapOpenverseAudio))))
          seen.audio).1 ∧
      r.total = jsOrNat d.result_count r.items.length) := by
  unfold fetchAudio at h
  split at h
  · rename_i hsf
    simp only [Except.ok.injEq] at h
    exact .inl ⟨hsf, h.symm⟩
  · rename_i hsf
    split at h
    · simp at h
    · rename_i d heq
      simp only [Except.ok.injEq] at h
      subst h
      exact .inr ⟨hsf, d, heq, rfl, rfl⟩

theorem fetchVideos_ok_elim (env : Env) (a : Args) (seen : Seen)
    (r : FetchResult) (h : (fetchVideos env a seen).result = .ok r) :
    (a.sourceFilter = .openverse ∧ r = { items := [], total := 0 }) ∨
    (a.sourceFilter ≠ .openverse ∧ ∃ d,
      env.pixabayVideosResp = .ok d ∧
      r.items = (dedupe (sortPlainItems a.sortBy
          (applyExclusionFilter a.excludeWords
            ((jsList d.hits).map mapPixabayVideo)))
          seen.videos).1 ∧
      r.total = jsOrNat d.totalHits r.items.length) := by
  unfold fetchVideos at h
  split at h
  · rename_i hsf
    simp only [Except.ok.injEq] at h
    exact .inl ⟨hsf, h.symm⟩
  · rename_i hsf
    split at h
    · simp at h
    · split at h
      · simp at h
      · rename_i d heq
        simp only [Except.ok.injEq] at h
        subst h
        exact .inr ⟨hsf, d, heq, rfl, rfl⟩

theorem openverseImagesPart_ok_mem {env : Env} {sf : SourceFilter}
    {l : List MediaResult} {t : Nat} {cs : List HttpCall}
    (heq : openverseImagesPart env sf = (.ok (l, t), cs)) :
    ∀ m ∈ l, ∃ it, m = mapOpenverseImage it := by
  unfold openverseImagesPart at heq
  split at heq
  · split at heq
    · simp only [Prod.mk.injEq, Except.ok.injEq] at heq
      obtain ⟨⟨hl, -⟩, -⟩ := heq
      intro m hm
      rw [← hl] at hm
      obtain ⟨it, -, hit⟩ := List.mem_map.mp hm
      exact ⟨it, hit.symm⟩
    · split at heq
      · simp at heq
      · simp only [Prod.mk.injEq, Except.ok.injEq, Prod.mk.injEq] at heq
        obtain ⟨⟨hl, -⟩, -⟩ := heq
        intro m hm
        rw [← hl] at hm
        simp at hm
  · simp only [Prod.mk.injEq, Except.ok.injEq, Prod.mk.injEq] at heq
    obtain ⟨⟨hl, -⟩, -⟩ := heq
    intro m hm
    rw [← hl] at hm
    simp at hm

theorem pixabayImagesPart_ok_mem {env : Env} {sf : SourceFilter}
    {l : List MediaResult} {t : Nat} {cs : List HttpCall}
    (heq : pixabayImagesPart env sf = (.ok (l, t), cs)) :
    ∀ m ∈ l, ∃ it, m = mapPixabayImage it := by
  unfold pixabayImagesPart at heq
  split at heq
  · split at heq
    · split at heq
      · simp at heq
      · simp only [Prod.mk.injEq, Except.ok.injEq, Prod.mk.injEq] at heq
        obtain ⟨⟨hl, -⟩, -⟩ := heq
        intro m hm
        rw [← hl] at hm
        simp at hm
    · split at heq
      · simp only [Prod.mk.injEq, Except.ok.injEq] at heq
        obtain ⟨⟨hl, -⟩, -⟩ := heq
        intro m hm
        rw [← hl] at hm
        obtain ⟨it, -, hit⟩ := List.mem_map.mp hm
        exact ⟨it, hit.symm⟩
      · split at heq
        · simp at heq
        · simp only [Prod.mk.injEq, Except.ok.injEq, Prod.mk.injEq] at heq
          obtain ⟨⟨hl, -⟩, -⟩ := heq
          intro m hm
          rw [← hl] at hm
          simp at hm
  · simp only [Prod.mk.injEq, Except.ok.injEq, Prod.mk.injEq] at heq
    obtain ⟨⟨hl, -⟩, -⟩ := heq
    intro m hm
    rw [← hl] at hm
    simp at hm

/-! ### Membership chain helpers -/

theorem mem_of_dedupe_fst {l : List MediaResult} {s : List String}
    {m : MediaResult} (hm : m ∈ (dedupe l s).1) : m ∈ l :=
  (dedupeGo_fst_sublist l [] s).subset hm

theorem mem_of_images_pipeline {sb : SortBy} {lf : String}
    {sf : SourceFilter} {ew : String} {l : List MediaResult}
    {s : List String} {m : MediaResult}
    (hm : m ∈ (dedupe (sortImagesItems sb
      (applyLicenseFilter lf sf (applyExclusionFilter ew l))) s).1) : m ∈ l :=
  (applyExclusionFilter_sublist _ _).subset
    ((applyLicenseFilter_sublist _ _ _).subset
      (mem_sortImagesItems.mp (mem_of_dedupe_fst hm)))

theorem mem_of_audio_pipeline {sb : SortBy} {lf : String}
    {sf : SourceFilter} {ew : String} {l : List MediaResult}
    {s : List String} {m : MediaResult}
    (hm : m ∈ (dedupe (sortPlainItems sb
      (applyLicenseFilter lf sf (applyExclusionFilter ew l))) s).1) : m ∈ l :=
  (applyExclusionFilter_sublist _ _).subset
    ((applyLicenseFilter_sublist _ _ _).subset
      (mem_sortPlainItems.mp (mem_of_dedupe_fst hm)))

theorem mem_of_videos_pipeline {sb : SortBy} {ew : String}
    {l : List MediaResult} {s : List String} {m : MediaResult}
    (hm : m ∈ (dedupe (sortPlainItems sb
      (applyExclusionFilter ew l)) s).1) : m ∈ l :=
  (applyExclusionFilter_sublist _ _).subset
    (mem_sortPlainItems.mp (mem_of_dedupe_fst hm))

theorem mem_applyExclusionFilter_iff {ew : String} {l : List MediaResult}
    {m : MediaResult} (h : jsTrim ew ≠ "") :
    m ∈ applyExclusionFilter ew l ↔
      m ∈ l ∧ ¬ ∃ t ∈ excludeTerms ew,
        jsIncludes (jsToLower m.title ++ " " ++ jsToLower (jsJoinSpace m.tags))
          t = true := by
  unfold applyExclusionFilter
  rw [if_neg h, List.mem_filter]
  simp [List.any_eq_true]

theorem mem_applyLicenseFilter_elim {lf : String} {l : List MediaResult}
    {m : MediaResult} (hlf : lf ≠ "all")
    (hm : m ∈ applyLicenseFilter lf .openverse l) :
    m.source = .openverse ∧ m.license = lf := by
  unfold applyLicenseFilter at hm
  rw [if_pos ⟨hlf, rfl⟩] at hm
  have hp := (List.mem_filter.mp hm).2
  simpa [Bool.and_eq_true, beq_iff_eq] using hp

/-! ### Claims -/

/-- C5: for every media type, page, and combination of filter/sort
arguments, if the query trims to the empty string then fetchMedia returns
an empty result with total 0, performs zero HTTP calls, and leaves all
three Seen-ID sets unchanged. -/
theorem C5_empty_query_short_circuits (env : Env) (a : Args) (seen : Seen)
    (h : jsTrim a.query = "") :
    fetchMedia env a seen =
      { result := .ok { items := [], total := 0 }, calls := [], seen := seen } := by
  simp [fetchMedia, h]

/-- Witness for C5 at a whitespace-only query with a pre-populated Seen-ID
set. -/
theorem C5_empty_query_short_circuits_witness :
    jsTrim "  " = "" ∧
      fetchMedia {} { type := .images, query := "  " } { images := ["k"] } =
        { result := .ok { items := [], total := 0 }, calls := [],
          seen := { images := ["k"] } } :=
  ⟨rfl, C5_empty_query_short_circuits {} { type := .images, query := "  " }
    { images := ["k"] } rfl⟩

/-- C10: a fetch for audio with sourceFilter pixabay, or for videos with
sourceFilter openverse (the filter excluding the media type's only
provider), returns an empty result with total 0 immediately, issuing no
HTTP request and leaving every Seen-ID set unchanged. -/
theorem C10_excluded_provider_early_return (env : Env) (a : Args)
    (seen : Seen)
    (h : (a.type = .audio ∧ a.sourceFilter = .pixabay) ∨
      (a.type = .videos ∧ a.sourceFilter = .openverse)) :
    fetchMedia env a seen =
      { result := .ok { items := [], total := 0 }, calls := [], seen := seen } := by
  by_cases hq : jsTrim a.query = ""
  · simp [fetchMedia, hq]
  · rcases h with ⟨ht, hs⟩ | ⟨ht, hs⟩ <;>
      simp [fetchMedia, hq, ht, fetchAudio, fetchVideos, hs]

/-- Witness for C10: both excluded-provider combinations at a non-empty
query and an environment whose providers would fail if called. -/
theorem C10_excluded_provider_early_return_witness :
    (fetchMedia {} { type := .audio, query := "q", sourceFilter := .pixabay }
        { audio := ["a"] } =
      { result := .ok { items := [], total := 0 }, calls := [],
        seen := { audio := ["a"] } }) ∧
    (fetchMedia {} { type := .videos, query := "q", sourceFilter := .openverse }
        {} =
      { result := .ok { items := [], total := 0 }, calls := [], seen := {} }) :=
  ⟨C10_excluded_provider_early_return {} _ _ (.inl ⟨rfl, rfl⟩),
   C10_excluded_provider_early_return {} _ _ (.inr ⟨rfl, rfl⟩)⟩

/-- C1 counterexample: with the images Seen-ID set already containing the
key "openverse-1" (as after a previous page fetch of the same session), a
fetch whose provider returns the item with that very key still returns the
item — the Seen-ID set is written to but never consulted, so the claimed
rejection does not happen. -/
theorem C1_counterexample :
    "openverse-1" ∈ (["openverse-1"] : List String) ∧
      ((fetchMedia
          { openverseImagesResp :=
              .ok { results := some [{ id := "1" }], result_count := 1 } }
          { type := .images, query := "q", sourceFilter := .openverse }
          { images := ["openverse-1"] }).result.map
        fun r => r.items.map compositeKey) = .ok ["openverse-1"] :=
  ⟨List.mem_cons_self _ _, rfl⟩

/-- C1 (amended): composite keys are unique within the items list returned
by one fetchMedia call — the deduplication Map is rebuilt per call and
rejects a second item with a key already in the Map; the Seen-ID set is
only written, never read, so uniqueness across the caller's accumulated
pages is not enforced. -/
theorem C1_amended_keys_nodup_per_call (env : Env) (a : Args) (seen : Seen)
    (r : FetchResult) (h : (fetchMedia env a seen).result = .ok r) :
    (r.items.map compositeKey).Nodup := by
  rcases fetchMedia_eq_cases env a seen with ⟨hq, he⟩ | ⟨hq, hcase⟩
  · rw [he] at h
    simp only [Except.ok.injEq] at h
    rw [← h]
    simp
  · rcases hcase with ⟨ht, he⟩ | ⟨ht, he⟩ | ⟨ht, he⟩ <;> rw [he] at h
    · obtain ⟨_, _, _, _, _, _, _, _, hitems, _⟩ :=
        fetchImages_ok_elim env a seen r h
      rw [hitems]
      exact (dedupeGo_keys _ _ _).1
    · rcases fetchAudio_ok_elim env a seen r h with ⟨-, hr⟩ | ⟨-, d, -, hitems, -⟩
      · rw [hr]; simp
      · rw [hitems]
        exact (dedupeGo_keys _ _ _).1
    · rcases fetchVideos_ok_elim env a seen r h with ⟨-, hr⟩ | ⟨-, d, -, hitems, -⟩
      · rw [hr]; simp
      · rw [hitems]
        exact (dedupeGo_keys _ _ _).1

/-- Witness for the amended C1 at a concrete successful fetch. -/
theorem C1_amended_keys_nodup_per_call_witness :
    ((({ items := [mapOpenverseImage { id := "1" }], total := 1 } :
        FetchResult)).items.map compositeKey).Nodup :=
  C1_amended_keys_nodup_per_call
    { openverseImagesResp :=
        .ok { results := some [{ id := "1" }], result_count := 1 } }
    { type := .images, query := "q", sourceFilter := .openverse }
    {} _ rfl

/-- C6: an item passes the exclusion filter iff no lowercase exclusion term
(whitespace-split from excludeWords) is a substring of
lowercase(title) ++ " " ++ lowercase(tags joined with spaces); with no tags
the checked text is the lowercase title plus the separating space, and an
excludeWords that trims to empty drops nothing. -/
theorem C6_exclusion_filter_characterization (ew : String)
    (items : List MediaResult) (m : MediaResult) :
    (jsTrim ew = "" → applyExclusionFilter ew items = items) ∧
    (jsTrim ew ≠ "" →
      (m ∈ applyExclusionFilter ew items ↔
        m ∈ items ∧ ¬ ∃ t ∈ excludeTerms ew,
          jsIncludes (jsToLower m.title ++ " " ++ jsToLower (jsJoinSpace m.tags))
            t = true)) ∧
    (m.tags = [] →
      jsToLower m.title ++ " " ++ jsToLower (jsJoinSpace m.tags) =
        jsToLower m.title ++ " ") ∧
    (∀ (env : Env) (a : Args) (seen : Seen) (r : FetchResult),
      (fetchMedia env a seen).result = .ok r → jsTrim a.excludeWords ≠ "" →
      ∀ m2 ∈ r.items, ¬ ∃ t ∈ excludeTerms a.excludeWords,
        jsIncludes
          (jsToLower m2.title ++ " " ++ jsToLower (jsJoinSpace m2.tags))
          t = true) := by
  refine ⟨fun h => applyExclusionFilter_of_trim_empty h items,
    fun h => mem_applyExclusionFilter_iff h, fun h => ?_, ?_⟩
  · simp [h, jsJoinSpace, jsToLower]
  · intro env a seen r h hew m2 hm2
    rcases fetchMedia_eq_cases env a seen with ⟨hq, he⟩ | ⟨hq, hcase⟩
    · rw [he] at h
      simp only [Except.ok.injEq] at h
      rw [← h] at hm2
      simp at hm2
    · rcases hcase with ⟨ht, he⟩ | ⟨ht, he⟩ | ⟨ht, he⟩ <;> rw [he] at h
      · obtain ⟨_, _, _, _, _, _, _, _, hitems, _⟩ :=
          fetchImages_ok_elim env a seen r h
        rw [hitems] at hm2
        have hmf := mem_sortImagesItems.mp (mem_of_dedupe_fst hm2)
        have hmE := (applyLicenseFilter_sublist _ _ _).subset hmf
        exact ((mem_applyExclusionFilter_iff hew).mp hmE).2
      · rcases fetchAudio_ok_elim env a seen r h with ⟨-, hr⟩ | ⟨-, d, -, hitems, -⟩
        · rw [hr] at hm2
          simp at hm2
        · rw [hitems] at hm2
          have hmf := mem_sortPlainItems.mp (mem_of_dedupe_fst hm2)
          have hmE := (applyLicenseFilter_sublist _ _ _).subset hmf
          exact ((mem_applyExclusionFilter_iff hew).mp hmE).2
      · rcases fetchVideos_ok_elim env a seen r h with ⟨-, hr⟩ | ⟨-, d, -, hitems, -⟩
        · rw [hr] at hm2
          simp at hm2
        · rw [hitems] at hm2
          have hmf := mem_sortPlainItems.mp (mem_of_dedupe_fst hm2)
          exact ((mem_applyExclusionFilter_iff hew).mp hmf).2

/-- Witness for C6: a matching item is dropped, a non-matching one kept,
and an empty excludeWords drops nothing, at concrete values. -/
theorem C6_exclusion_filter_characterization_witness :
    ({ id := "2", title := "Cat", url := "", thumbnail := "",
       license := "x", source := .openverse } : MediaResult) ∈
      applyExclusionFilter "bad"
        [{ id := "1", title := "Bad dog", url := "", thumbnail := "",
           license := "x", source := .openverse },
         { id := "2", title := "Cat", url := "", thumbnail := "",
           license := "x", source := .openverse }] ∧
    ¬ ({ id := "1", title := "Bad dog", url := "", thumbnail := "",
         license := "x", source := .openverse } : MediaResult) ∈
      applyExclusionFilter "bad"
        [{ id := "1", title := "Bad dog", url := "", thumbnail := "",
           license := "x", source := .openverse },
         { id := "2", title := "Cat", url := "", thumbnail := "",
           license := "x", source := .openverse }] ∧
    applyExclusionFilter " "
      [{ id := "1", title := "Bad dog", url := "", thumbnail := "",
         license := "x", source := .openverse }] =
      [{ id := "1", title := "Bad dog", url := "", thumbnail := "",
         license := "x", source := .openverse }] := by
  refine ⟨?_, ?_, ?_⟩
  · exact ((C6_exclusion_filter_characterization "bad" _ _).2.1
      (by decide)).mpr ⟨by simp, by decide⟩
  · intro hmem
    have hno := (((C6_exclusion_filter_characterization "bad" _ _).2.1
      (by decide)).mp hmem).2
    exact hno (by decide)
  · exact (C6_exclusion_filter_characterization " " _
      { id := "1", title := "Bad dog", url := "", thumbnail := "",
        license := "x", source := .openverse }).1 rfl

/-- C4 counterexample: with sourceFilter all and licenseFilter "by", an
Openverse item licensed "cc0" still appears in the result — the license
filter only runs when sourceFilter is exactly openverse. -/
theorem C4_counterexample :
    ((fetchMedia
        { pixabayApiKey := some "k",
          openverseImagesResp :=
            .ok { results := some [{ id := "1", license := some "cc0" }],
                  result_count := 1 },
          pixabayImagesResp := .ok {} }
        { type := .images, query := "q", licenseFilter := "by" }
        {}).result.map fun r => r.items.map fun m => (m.source, m.license))
      = .ok [(.openverse, "cc0")] ∧
    ("by" : String) ≠ "all" ∧ ("cc0" : String) ≠ "by" :=
  ⟨rfl, by decide, by decide⟩

/-- C4 (amended): the license filter runs only when sourceFilter is exactly
openverse; in that case (for images and audio) every returned item is an
Openverse item whose license equals licenseFilter exactly. -/
theorem C4_amended_license_filter (env : Env) (a : Args) (seen : Seen)
    (r : FetchResult) (m : MediaResult)
    (hsf : a.sourceFilter = .openverse) (hlf : a.licenseFilter ≠ "all")
    (hty : a.type ≠ .videos)
    (h : (fetchMedia env a seen).result = .ok r) (hm : m ∈ r.items) :
    m.source = .openverse ∧ m.license = a.licenseFilter := by
  rcases fetchMedia_eq_cases env a seen with ⟨hq, he⟩ | ⟨hq, hcase⟩
  · rw [he] at h
    simp only [Except.ok.injEq] at h
    rw [← h] at hm
    simp at hm
  · rcases hcase with ⟨ht, he⟩ | ⟨ht, he⟩ | ⟨ht, he⟩ <;> rw [he] at h
    · obtain ⟨_, _, _, _, _, _, _, _, hitems, _⟩ :=
        fetchImages_ok_elim env a seen r h
      rw [hitems] at hm
      have hmf := mem_sortImagesItems.mp (mem_of_dedupe_fst hm)
      rw [hsf] at hmf
      exact mem_applyLicenseFilter_elim hlf hmf
    · rcases fetchAudio_ok_elim env a seen r h with ⟨hp, -⟩ | ⟨-, d, -, hitems, -⟩
      · rw [hsf] at hp
        exact absurd hp (by simp)
      · rw [hitems] at hm
        have hmf := mem_sortPlainItems.mp (mem_of_dedupe_fst hm)
        rw [hsf] at hmf
        exact mem_applyLicenseFilter_elim hlf hmf
    · exact absurd ht hty

/-- Witness for the amended C4 at a concrete openverse-only fetch. -/
theorem C4_amended_license_filter_witness :
    (mapOpenverseImage { id := "1", license := some "by" }).source =
        .openverse ∧
      (mapOpenverseImage { id := "1", license := some "by" }).license = "by" :=
  C4_amended_license_filter
    { openverseImagesResp :=
        .ok { results := some [{ id := "1", license := some "by" }],
              result_count := 1 } }
    { type := .images, query := "q", licenseFilter := "by",
      sourceFilter := .openverse }
    {} { items := [mapOpenverseImage { id := "1", license := some "by" }],
         total := 1 } _
    rfl (by decide) (by decide) rfl (List.mem_cons_self _ _)

/-- C8 counterexample: a successful fetch hands the caller an item with
size = none even though the two-phase probe on that item's URL would
succeed — fetchMedia constructs every item with size undefined and never
invokes the probe. -/
theorem C8_counterexample :
    ((fetchMedia
        { openverseImagesResp :=
            .ok { results := some [{ id := "1", url := some "http://x/a.jpg" }],
                  result_count := 1 } }
        { type := .images, query := "q", sourceFilter := .openverse }
        {}).result.map fun r => r.items.map fun m => (m.url, m.size))
      = .ok [("http://x/a.jpg", none)] ∧
    fetchSize { headResp := some { ok := true, contentLength := some "1234" } }
      "http://x/a.jpg" = some 1234 :=
  ⟨rfl, rfl⟩

/-- C8 (amended): every item returned by fetchMedia has size = none; the
two-phase probe (fetchSize, defined in the search page) is never applied to
the items fetchMedia returns. -/
theorem C8_amended_size_never_resolved (env : Env) (a : Args) (seen : Seen)
    (r : FetchResult) (m : MediaResult)
    (h : (fetchMedia env a seen).result = .ok r) (hm : m ∈ r.items) :
    m.size = none := by
  rcases fetchMedia_eq_cases env a seen with ⟨hq, he⟩ | ⟨hq, hcase⟩
  · rw [he] at h
    simp only [Except.ok.injEq] at h
    rw [← h] at hm
    simp at hm
  · rcases hcase with ⟨ht, he⟩ | ⟨ht, he⟩ | ⟨ht, he⟩ <;> rw [he] at h
    · obtain ⟨ovItems, _, _, pixItems, _, _, hov, hpix, hitems, _⟩ :=
        fetchImages_ok_elim env a seen r h
      rw [hitems] at hm
      rcases List.mem_append.mp (mem_of_images_pipeline hm) with hmo | hmp
      · obtain ⟨it, rfl⟩ := openverseImagesPart_ok_mem hov m hmo
        rfl
      · obtain ⟨it, rfl⟩ := pixabayImagesPart_ok_mem hpix m hmp
        rfl
    · rcases fetchAudio_ok_elim env a seen r h with ⟨-, hr⟩ | ⟨-, d, -, hitems, -⟩
      · rw [hr] at hm
        simp at hm
      · rw [hitems] at hm
        obtain ⟨it, -, hit⟩ := List.mem_map.mp (mem_of_audio_pipeline hm)
        rw [← hit]
        rfl
    · rcases fetchVideos_ok_elim env a seen r h with ⟨-, hr⟩ | ⟨-, d, -, hitems, -⟩
      · rw [hr] at hm
        simp at hm
      · rw [hitems] at hm
        obtain ⟨it, -, hit⟩ := List.mem_map.mp (mem_of_videos_pipeline hm)
        rw [← hit]
        rfl

/-- Witness for the amended C8 at a concrete successful fetch. -/
theorem C8_amended_size_never_resolved_witness :
    (mapOpenverseImage { id := "1", url := some "http://x/a.jpg" }).size =
      none :=
  C8_amended_size_never_resolved
    { openverseImagesResp :=
        .ok { results := some [{ id := "1", url := some "http://x/a.jpg" }],
              result_count := 1 } }
    { type := .images, query := "q", sourceFilter := .openverse }
    {} { items := [mapOpenverseImage { id := "1", url := some "http://x/a.jpg" }],
         total := 1 } _
    rfl (List.mem_cons_self _ _)

/-- C2 counterexample: for audio with sourceFilter all, a failing Openverse
call is not swallowed — the error propagates and fails the whole call,
contradicting the claim that 'all' swallows provider failures for every
media type. -/
theorem C2_counterexample :
    ({ type := .audio, query := "q" } : Args).sourceFilter = .all ∧
      (fetchMedia { openverseAudioResp := .error "boom" }
        { type := .audio, query := "q" } {}).result = .error "boom" :=
  ⟨rfl, rfl⟩

/-- C2 (amended): for images, a provider failure propagates exactly when
that provider is exclusively selected, and under sourceFilter all it is
swallowed — the call still succeeds, the failing provider contributes zero
items (the outcome equals that of an empty successful response) and the
other provider is unaffected.  For audio and videos, however, the single
provider's failure propagates even under sourceFilter all (the catch
rethrows unconditionally). -/
theorem C2_amended_error_policy :
    (∀ (env : Env) (a : Args) (seen : Seen) (e : String),
      a.type = .images → a.sourceFilter = .openverse → jsTrim a.query ≠ "" →
      env.openverseImagesResp = .error e →
      (fetchMedia env a seen).result = .error e) ∧
    (∀ (env : Env) (a : Args) (seen : Seen) (e k : String),
      a.type = .images → a.sourceFilter = .pixabay → jsTrim a.query ≠ "" →
      env.pixabayApiKey = some k → k ≠ "" →
      env.pixabayImagesResp = .error e →
      (fetchMedia env a seen).result = .error e) ∧
    (∀ (env : Env) (a : Args) (seen : Seen),
      a.type = .images → a.sourceFilter = .all → jsTrim a.query ≠ "" →
      ∃ r, (fetchMedia env a seen).result = .ok r) ∧
    (∀ (env : Env) (a : Args) (seen : Seen) (e : String),
      a.type = .images → a.sourceFilter = .all → jsTrim a.query ≠ "" →
      env.openverseImagesResp = .error e →
      fetchMedia env a seen =
        fetchMedia { env with openverseImagesResp := .ok { results := some [], result_count := 0 } } a seen) ∧
    (∀ (env : Env) (a : Args) (seen : Seen) (e k : String),
      a.type = .images → a.sourceFilter = .all → jsTrim a.query ≠ "" →
      env.pixabayApiKey = some k → k ≠ "" →
      env.pixabayImagesResp = .error e →
      fetchMedia env a seen =
        fetchMedia { env with pixabayImagesResp := .ok { hits := some [], totalHits := 0 } } a seen) ∧
    (∀ (env : Env) (a : Args) (seen : Seen) (e : String),
      a.type = .audio → a.sourceFilter ≠ .pixabay → jsTrim a.query ≠ "" →
      env.openverseAudioResp = .error e →
      (fetchMedia env a seen).result = .error e) ∧
    (∀ (env : Env) (a : Args) (seen : Seen) (e : String),
      a.type = .videos → a.sourceFilter ≠ .openverse → jsTrim a.query ≠ "" →
      ¬ ((env.pixabayApiKey = none ∨ env.pixabayApiKey = some "") ∧
          a.sourceFilter = .pixabay) →
      env.pixabayVideosResp = .error e →
      (fetchMedia env a seen).result = .error e) := by
  refine ⟨?_, ?_, ?_, ?_, ?_, ?_, ?_⟩
  · intro env a seen e ht hsf hq he
    rw [show fetchMedia env a seen = fetchImages env a seen from by
      simp [fetchMedia, hq, ht]]
    unfold fetchImages
    rw [show openverseImagesPart env a.sourceFilter =
        (.error e, [.openverseImages]) from by
      simp [openverseImagesPart, hsf, he]]
  · intro env a seen e k ht hsf hq hkey hk he
    rw [show fetchMedia env a seen = fetchImages env a seen from by
      simp [fetchMedia, hq, ht]]
    unfold fetchImages
    rw [show openverseImagesPart env a.sourceFilter = (.ok ([], 0), []) from by
        simp [openverseImagesPart, hsf],
      show pixabayImagesPart env a.sourceFilter =
          (.error e, [.pixabayImages]) from by
        simp [pixabayImagesPart, hsf, hkey, hk, he]]
  · intro env a seen ht hsf hq
    rw [show fetchMedia env a seen = fetchImages env a seen from by
      simp [fetchMedia, hq, ht]]
    exact fetchImages_all_ok env a seen hsf
  · intro env a seen e ht hsf hq he
    rw [show fetchMedia env a seen = fetchImages env a seen from by
        simp [fetchMedia, hq, ht],
      show fetchMedia { env with openverseImagesResp := .ok { results := some [], result_count := 0 } } a seen = fetchImages { env with openverseImagesResp := .ok { results := some [], result_count := 0 } } a seen from by
        simp [fetchMedia, hq, ht]]
    unfold fetchImages
    rw [show openverseImagesPart env a.sourceFilter =
          (.ok ([], 0), [.openverseImages]) from by
        simp [openverseImagesPart, hsf, he],
      show openverseImagesPart { env with openverseImagesResp := .ok { results := some [], result_count := 0 } } a.sourceFilter = (.ok ([], 0), [.openverseImages]) from by
        simp [openverseImagesPart, hsf, jsList, jsOrNat]]
    exact rfl
  · intro env a seen e k ht hsf hq hkey hk he
    rw [show fetchMedia env a seen = fetchImages env a seen from by
        simp [fetchMedia, hq, ht],
      show fetchMedia { env with pixabayImagesResp := .ok { hits := some [], totalHits := 0 } } a seen = fetchImages { env with pixabayImagesResp := .ok { hits := some [], totalHits := 0 } } a seen from by
        simp [fetchMedia, hq, ht]]
    unfold fetchImages
    rw [show pixabayImagesPart env a.sourceFilter =
          (.ok ([], 0), [.pixabayImages]) from by
        simp [pixabayImagesPart, hsf, hkey, hk, he],
      show pixabayImagesPart { env with pixabayImagesResp := .ok { hits := some [], totalHits := 0 } } a.sourceFilter = (.ok ([], 0), [.pixabayImages]) from by
        simp [pixabayImagesPart, hsf, hkey, hk, jsList, jsOrNat]]
    exact rfl
  · intro env a seen e ht hsf hq he
    rw [show fetchMedia env a seen = fetchAudio env a seen from by
      simp [fetchMedia, hq, ht]]
    unfold fetchAudio
    rw [if_neg hsf, he]
  · intro env a seen e ht hsfo hq hkey he
    rw [show fetchMedia env a seen = fetchVideos env a seen from by
      simp [fetchMedia, hq, ht]]
    unfold fetchVideos
    rw [if_neg hsfo, if_neg hkey, he]

/-- Witness for the amended C2: every conjunct applied at a concrete
environment. -/
theorem C2_amended_error_policy_witness :
    ((fetchMedia { openverseImagesResp := .error "e1" }
        { type := .images, query := "q", sourceFilter := .openverse }
        {}).result = .error "e1") ∧
    ((fetchMedia { pixabayApiKey := some "k", pixabayImagesResp := .error "e2" }
        { type := .images, query := "q", sourceFilter := .pixabay }
        {}).result = .error "e2") ∧
    (∃ r, (fetchMedia {} { type := .images, query := "q" } {}).result =
      .ok r) ∧
    (fetchMedia
        { openverseImagesResp := .error "e3", pixabayApiKey := some "k",
          pixabayImagesResp :=
            .ok { hits := some [{ id := "1" }], totalHits := 5 } }
        { type := .images, query := "q" } {} =
      fetchMedia
        { openverseImagesResp := .ok { results := some [], result_count := 0 },
          pixabayApiKey := some "k",
          pixabayImagesResp :=
            .ok { hits := some [{ id := "1" }], totalHits := 5 } }
        { type := .images, query := "q" } {}) ∧
    (fetchMedia
        { openverseImagesResp :=
            .ok { results := some [{ id := "2" }], result_count := 7 },
          pixabayApiKey := some "k", pixabayImagesResp := .error "e4" }
        { type := .images, query := "q" } {} =
      fetchMedia
        { openverseImagesResp :=
            .ok { results := some [{ id := "2" }], result_count := 7 },
          pixabayApiKey := some "k",
          pixabayImagesResp := .ok { hits := some [], totalHits := 0 } }
        { type := .images, query := "q" } {}) ∧
    ((fetchMedia { openverseAudioResp := .error "e5" }
        { type := .audio, query := "q" } {}).result = .error "e5") ∧
    ((fetchMedia { pixabayApiKey := some "k", pixabayVideosResp := .error "e6" }
        { type := .videos, query := "q" } {}).result = .error "e6") := by
  have h := C2_amended_error_policy
  exact ⟨h.1 _ _ _ _ rfl rfl (by decide) rfl,
    h.2.1 _ _ _ _ _ rfl rfl (by decide) rfl (by decide) rfl,
    h.2.2.1 _ _ _ rfl rfl (by decide),
    h.2.2.2.1 _ _ _ _ rfl rfl (by decide) rfl,
    h.2.2.2.2.1 _ _ _ _ _ rfl rfl (by decide) rfl (by decide) rfl,
    h.2.2.2.2.2.1 _ _ _ _ rfl (by decide) (by decide) rfl,
    h.2.2.2.2.2.2 _ _ _ _ rfl (by decide) (by decide) (by decide) rfl⟩

/-- C3 counterexample: for videos with sourceFilter all and the Pixabay API
key absent, an HTTP request to Pixabay IS still issued (the videos branch
has no else around its key check), contradicting the claim that no request
is issued. -/
theorem C3_counterexample :
    ({ pixabayVideosResp := .error "bad key" } : Env).pixabayApiKey = none ∧
    ({ type := .videos, query := "q" } : Args).sourceFilter = .all ∧
    HttpCall.pixabayVideos ∈
      (fetchMedia { pixabayVideosResp := .error "bad key" }
        { type := .videos, query := "q" } {}).calls :=
  ⟨rfl, rfl, List.mem_cons_self _ _⟩

/-- C3 (amended): with the Pixabay key absent or empty, the images branch
issues no Pixabay request — failing with the credential error exactly when
sourceFilter is pixabay, and otherwise succeeding with only Openverse
items; the videos branch fails without a request when sourceFilter is
pixabay, but when sourceFilter is all it still issues the Pixabay request
(with the missing key), whose failure then propagates. -/
theorem C3_amended_missing_key_policy :
    (∀ (env : Env) (a : Args) (seen : Seen),
      a.type = .images →
      (env.pixabayApiKey = none ∨ env.pixabayApiKey = some "") →
      a.sourceFilter = .pixabay → jsTrim a.query ≠ "" →
      fetchMedia env a seen =
        { result := .error "Pixabay API key is not set", calls := [],
          seen := seen }) ∧
    (∀ (env : Env) (a : Args) (seen : Seen),
      a.type = .images →
      (env.pixabayApiKey = none ∨ env.pixabayApiKey = some "") →
      a.sourceFilter = .all → jsTrim a.query ≠ "" →
      (fetchMedia env a seen).calls = [.openverseImages] ∧
      ∃ r, (fetchMedia env a seen).result = .ok r ∧
        ∀ m ∈ r.items, m.source = .openverse) ∧
    (∀ (env : Env) (a : Args) (seen : Seen),
      a.type = .videos →
      (env.pixabayApiKey = none ∨ env.pixabayApiKey = some "") →
      a.sourceFilter = .pixabay → jsTrim a.query ≠ "" →
      fetchMedia env a seen =
        { result := .error "Pixabay API key is not set", calls := [],
          seen := seen }) ∧
    (∀ (env : Env) (a : Args) (seen : Seen),
      a.type = .videos →
      (env.pixabayApiKey = none ∨ env.pixabayApiKey = some "") →
      a.sourceFilter = .all → jsTrim a.query ≠ "" →
      HttpCall.pixabayVideos ∈ (fetchMedia env a seen).calls) := by
  refine ⟨?_, ?_, ?_, ?_⟩
  · intro env a seen ht hkey hsf hq
    rw [show fetchMedia env a seen = fetchImages env a seen from by
      simp [fetchMedia, hq, ht]]
    unfold fetchImages
    rw [show openverseImagesPart env a.sourceFilter = (.ok ([], 0), []) from by
        simp [openverseImagesPart, hsf]]
    rw [show pixabayImagesPart env a.sourceFilter =
        (.error "Pixabay API key is not set", []) from by
      unfold pixabayImagesPart
      rw [if_pos (Or.inr hsf), if_pos hkey, if_pos hsf]]
    exact rfl
  · intro env a seen ht hkey hsf hq
    rw [show fetchMedia env a seen = fetchImages env a seen from by
      simp [fetchMedia, hq, ht]]
    obtain ⟨lo, t0, h1⟩ := openverseImagesPart_all_ok env
    have hOvMem := openverseImagesPart_ok_mem (hsf ▸ h1)
    have h2 : pixabayImagesPart env .all = (.ok ([], 0), []) := by
      unfold pixabayImagesPart
      rw [if_pos (Or.inl rfl), if_pos hkey, if_neg (by simp)]
    unfold fetchImages
    rw [hsf, h1, h2]
    refine ⟨rfl, _, rfl, ?_⟩
    intro m hm
    have hml : m ∈ lo ++ [] := mem_of_images_pipeline hm
    rw [List.append_nil] at hml
    obtain ⟨it, hit⟩ := hOvMem m hml
    rw [hit]
    rfl
  · intro env a seen ht hkey hsf hq
    rw [show fetchMedia env a seen = fetchVideos env a seen from by
      simp [fetchMedia, hq, ht]]
    unfold fetchVideos
    rw [if_neg (by rw [hsf]; simp), if_pos ⟨hkey, hsf⟩]
  · intro env a seen ht hkey hsf hq
    rw [show fetchMedia env a seen = fetchVideos env a seen from by
      simp [fetchMedia, hq, ht]]
    unfold fetchVideos
    rw [if_neg (by rw [hsf]; simp), if_neg (by rw [hsf]; simp)]
    cases hres : env.pixabayVideosResp with
    | error e => exact List.mem_cons_self _ _
    | ok d => exact List.mem_cons_self _ _

/-- Witness for the amended C3: all four conjuncts at concrete
environments with a missing key. -/
theorem C3_amended_missing_key_policy_witness :
    (fetchMedia {} { type := .images, query := "q", sourceFilter := .pixabay }
        { images := ["x"] } =
      { result := .error "Pixabay API key is not set", calls := [],
        seen := { images := ["x"] } }) ∧
    ((fetchMedia
        { openverseImagesResp :=
            .ok { results := some [{ id := "1" }], result_count := 1 } }
        { type := .images, query := "q" } {}).calls = [.openverseImages] ∧
      ∃ r, (fetchMedia
          { openverseImagesResp :=
              .ok { results := some [{ id := "1" }], result_count := 1 } }
          { type := .images, query := "q" } {}).result = .ok r ∧
        ∀ m ∈ r.items, m.source = .openverse) ∧
    (fetchMedia { pixabayApiKey := some "" }
        { type := .videos, query := "q", sourceFilter := .pixabay } {} =
      { result := .error "Pixabay API key is not set", calls := [],
        seen := {} }) ∧
    HttpCall.pixabayVideos ∈
      (fetchMedia { pixabayVideosResp := .ok {} }
        { type := .videos, query := "q" } {}).calls := by
  have h := C3_amended_missing_key_policy
  exact ⟨h.1 _ _ _ rfl (.inl rfl) rfl (by decide),
    h.2.1 _ _ _ rfl (.inl rfl) rfl (by decide),
    h.2.2.1 _ _ _ rfl (.inr rfl) rfl (by decide),
    h.2.2.2 _ _ _ rfl (.inl rfl) rfl (by decide)⟩

theorem pairwiseOfMem {α : Type} {R : α → α → Prop} {l : List α}
    (h : ∀ x ∈ l, ∀ y ∈ l, R x y) : l.Pairwise R := by
  induction l with
  | nil => exact List.Pairwise.nil
  | cons x xs ih =>
    refine List.pairwise_cons.mpr ⟨?_, ?_⟩
    · intro y hy
      exact h x (List.mem_cons_self x xs) y (List.mem_cons_of_mem x hy)
    · exact ih fun u hu v hv =>
        h u (List.mem_cons_of_mem x hu) v (List.mem_cons_of_mem x hv)

/-- C7: for images with sourceFilter all and both providers succeeding with
one item each and nonzero reported counts (and no active exclusion filter,
distinct composite keys), the result contains both mapped items, the total
is the maximum of the two reported counts, and both composite keys are in
the images Seen-ID set afterwards. -/
theorem C7_images_all_scenario (env : Env) (a : Args) (seen : Seen)
    (itA : OpenverseItem) (itB : PixabayItem) (ca cb : Nat) (k : String)
    (ht : a.type = .images) (hsf : a.sourceFilter = .all)
    (hq : jsTrim a.query ≠ "") (hew : jsTrim a.excludeWords = "")
    (hov : env.openverseImagesResp =
      .ok { results := some [itA], result_count := ca })
    (hpx : env.pixabayImagesResp = .ok { hits := some [itB], totalHits := cb })
    (hkey : env.pixabayApiKey = some k) (hk : k ≠ "")
    (hca : ca ≠ 0) (hcb : cb ≠ 0)
    (hne : compositeKey (mapOpenverseImage itA) ≠
      compositeKey (mapPixabayImage itB)) :
    ∃ r, (fetchMedia env a seen).result = .ok r ∧
      mapOpenverseImage itA ∈ r.items ∧ mapPixabayImage itB ∈ r.items ∧
      r.total = Nat.max ca cb ∧
      compositeKey (mapOpenverseImage itA) ∈
        (fetchMedia env a seen).seen.images ∧
      compositeKey (mapPixabayImage itB) ∈
        (fetchMedia env a seen).seen.images := by
  have hme : fetchMedia env a seen = fetchImages env a seen := by
    simp [fetchMedia, hq, ht]
  have h1 : openverseImagesPart env .all =
      (.ok ([mapOpenverseImage itA], ca), [.openverseImages]) := by
    simp [openverseImagesPart, hov, jsList, jsOrNat, hca]
  have h2 : pixabayImagesPart env .all =
      (.ok ([mapPixabayImage itB], cb), [.pixabayImages]) := by
    simp [pixabayImagesPart, hkey, hk, hpx, jsList, jsOrNat, hcb]
  obtain ⟨r, hr⟩ := fetchImages_all_ok env a seen hsf
  obtain ⟨ovItems, ovTotal, ovCalls, pixItems, pixTotal, pixCalls,
    hovP, hpxP, hitems, htotal, hseen, hcalls⟩ :=
    fetchImages_ok_elim env a seen r hr
  rw [hsf, h1] at hovP
  rw [hsf, h2] at hpxP
  simp only [Prod.mk.injEq, Except.ok.injEq] at hovP hpxP
  obtain ⟨⟨hA, hca2⟩, -⟩ := hovP
  obtain ⟨⟨hB, hcb2⟩, -⟩ := hpxP
  rw [hsf] at hitems hseen
  rw [← hA, ← hB] at hitems hseen
  rw [← hca2, ← hcb2] at htotal
  have hbase : applyLicenseFilter a.licenseFilter .all
      (applyExclusionFilter a.excludeWords
        ([mapOpenverseImage itA] ++ [mapPixabayImage itB])) =
      [mapOpenverseImage itA, mapPixabayImage itB] := by
    rw [applyExclusionFilter_of_trim_empty hew,
      applyLicenseFilter_of_not_openverse (by simp)]
    rfl
  rw [hbase] at hitems hseen
  have hnd : ((sortImagesItems a.sortBy
      [mapOpenverseImage itA, mapPixabayImage itB]).map compositeKey).Nodup := by
    have hperm := (sortImagesItems_perm a.sortBy
      [mapOpenverseImage itA, mapPixabayImage itB]).map compositeKey
    rw [hperm.nodup_iff]
    simp [hne]
  have hded : (dedupeGo (sortImagesItems a.sortBy
      [mapOpenverseImage itA, mapPixabayImage itB]) [] seen.images).1 =
      sortImagesItems a.sortBy [mapOpenverseImage itA, mapPixabayImage itB] :=
    dedupeGo_of_nodup _ [] seen.images hnd (by simp)
  have hdedD : (dedupe (sortImagesItems a.sortBy
      [mapOpenverseImage itA, mapPixabayImage itB]) seen.images).1 =
      sortImagesItems a.sortBy [mapOpenverseImage itA, mapPixabayImage itB] :=
    hded
  have hAmem : mapOpenverseImage itA ∈ sortImagesItems a.sortBy
      [mapOpenverseImage itA, mapPixabayImage itB] :=
    mem_sortImagesItems.mpr (by simp)
  have hBmem : mapPixabayImage itB ∈ sortImagesItems a.sortBy
      [mapOpenverseImage itA, mapPixabayImage itB] :=
    mem_sortImagesItems.mpr (by simp)
  refine ⟨r, by rw [hme]; exact hr, ?_, ?_, ?_, ?_, ?_⟩
  · rw [hitems, hdedD]
    exact hAmem
  · rw [hitems, hdedD]
    exact hBmem
  · rw [htotal]
    simp
  · rw [hme, hseen]
    exact dedupeGo_key_mem_seen _ [] seen.images _ (by rw [hded]; exact hAmem)
  · rw [hme, hseen]
    exact dedupeGo_key_mem_seen _ [] seen.images _ (by rw [hded]; exact hBmem)

/-- Witness for C7 at the spec scenario (counts 100 and 200, one item per
provider). -/
theorem C7_images_all_scenario_witness :
    ∃ r, (fetchMedia
        { pixabayApiKey := some "key",
          openverseImagesResp :=
            .ok { results := some [{ id := "a" }], result_count := 100 },
          pixabayImagesResp :=
            .ok { hits := some [{ id := "b" }], totalHits := 200 } }
        { type := .images, query := "nature" } {}).result = .ok r ∧
      mapOpenverseImage { id := "a" } ∈ r.items ∧
      mapPixabayImage { id := "b" } ∈ r.items ∧
      r.total = Nat.max 100 200 ∧
      compositeKey (mapOpenverseImage { id := "a" }) ∈
        (fetchMedia
          { pixabayApiKey := some "key",
            openverseImagesResp :=
              .ok { results := some [{ id := "a" }], result_count := 100 },
            pixabayImagesResp :=
              .ok { hits := some [{ id := "b" }], totalHits := 200 } }
          { type := .images, query := "nature" } {}).seen.images ∧
      compositeKey (mapPixabayImage { id := "b" }) ∈
        (fetchMedia
          { pixabayApiKey := some "key",
            openverseImagesResp :=
              .ok { results := some [{ id := "a" }], result_count := 100 },
            pixabayImagesResp :=
              .ok { hits := some [{ id := "b" }], totalHits := 200 } }
          { type := .images, query := "nature" } {}).seen.images :=
  C7_images_all_scenario _ _ _ _ _ _ _ _ rfl rfl (by decide) rfl rfl rfl rfl
    (by decide) (by decide) (by decide) (by decide)

/-- C9: for images sorted by source-asc every openverse item precedes every
pixabay item in the returned list, and for source-desc every pixabay item
precedes every openverse item.  (The source-asc comparator of the code
compares an item's source with itself and so never reorders, but the merge
always places the Openverse block before the Pixabay block, so the returned
order is ascending regardless.) -/
theorem C9_source_sort_order (env : Env) (a : Args) (seen : Seen)
    (r : FetchResult) (ht : a.type = .images)
    (h : (fetchMedia env a seen).result = .ok r) :
    (a.sortBy = .sourceAsc →
      r.items.Pairwise fun x y =>
        x.source = .pixabay → y.source = .pixabay) ∧
    (a.sortBy = .sourceDesc →
      r.items.Pairwise fun x y =>
        x.source = .openverse → y.source = .openverse) := by
  rcases fetchMedia_eq_cases env a seen with ⟨hq, he⟩ | ⟨hq, hcase⟩
  · rw [he] at h
    simp only [Except.ok.injEq] at h
    rw [← h]
    exact ⟨fun _ => by simp, fun _ => by simp⟩
  · rcases hcase with ⟨ht2, he⟩ | ⟨ht2, he⟩ | ⟨ht2, he⟩
    · rw [he] at h
      obtain ⟨ovItems, _, _, pixItems, _, _, hovP, hpxP, hitems, -⟩ :=
        fetchImages_ok_elim env a seen r h
      have hOv := openverseImagesPart_ok_mem hovP
      have hPx := pixabayImagesPart_ok_mem hpxP
      have hpwAsc : (applyLicenseFilter a.licenseFilter a.sourceFilter
          (applyExclusionFilter a.excludeWords (ovItems ++ pixItems))).Pairwise
          fun x y => x.source = .pixabay → y.source = .pixabay := by
        refine List.Pairwise.sublist
          ((applyLicenseFilter_sublist _ _ _).trans
            (applyExclusionFilter_sublist _ _)) ?_
        rw [List.pairwise_append]
        refine ⟨pairwiseOfMem fun x hx y hy hxp => ?_,
          pairwiseOfMem fun x hx y hy _ => ?_, fun x hx y hy _ => ?_⟩
        · obtain ⟨it, rfl⟩ := hOv x hx
          exact absurd hxp (by simp [mapOpenverseImage])
        · obtain ⟨it, rfl⟩ := hPx y hy
          rfl
        · obtain ⟨it, rfl⟩ := hPx y hy
          rfl
      constructor
      · intro hsb
        rw [hsb] at hitems
        rw [hitems]
        rw [show sortImagesItems .sourceAsc
            (applyLicenseFilter a.licenseFilter a.sourceFilter
              (applyExclusionFilter a.excludeWords (ovItems ++ pixItems))) =
            applyLicenseFilter a.licenseFilter a.sourceFilter
              (applyExclusionFilter a.excludeWords (ovItems ++ pixItems)) from
          jsSort_of_pairwise
            (pairwiseOfMem fun x _ y _ => leChars_refl x.source.str.data)]
        exact List.Pairwise.sublist (dedupeGo_fst_sublist _ [] seen.images)
          hpwAsc
      · intro hsb
        rw [hsb] at hitems
        rw [hitems]
        have htr : ∀ x y z : MediaResult,
            jsStrLe y.source.str x.source.str = true →
            jsStrLe z.source.str y.source.str = true →
            jsStrLe z.source.str x.source.str = true := by
          intro x y z
          cases x.source <;> cases y.source <;> cases z.source <;> decide
        have htot : ∀ x y : MediaResult,
            jsStrLe y.source.str x.source.str = true ∨
              jsStrLe x.source.str y.source.str = true := by
          intro x y
          cases x.source <;> cases y.source <;> decide
        have hsorted : (jsSort (fun x y => jsStrLe y.source.str x.source.str)
            (applyLicenseFilter a.licenseFilter a.sourceFilter
              (applyExclusionFilter a.excludeWords
                (ovItems ++ pixItems)))).Pairwise
            fun x y => jsStrLe y.source.str x.source.str = true :=
          jsSort_pairwise (fun x y z => htr x y z) (fun x y => htot x y) _
        have hconv : (jsSort (fun x y => jsStrLe y.source.str x.source.str)
            (applyLicenseFilter a.licenseFilter a.sourceFilter
              (applyExclusionFilter a.excludeWords
                (ovItems ++ pixItems)))).Pairwise
            fun x y => x.source = .openverse → y.source = .openverse := by
          refine hsorted.imp ?_
          intro x y hle hxo
          rw [hxo] at hle
          cases hy : y.source
          · rfl
          · rw [hy] at hle
            exact absurd hle (by decide)
        exact List.Pairwise.sublist (dedupeGo_fst_sublist _ [] seen.images)
          hconv
    · rw [ht] at ht2
      simp at ht2
    · rw [ht] at ht2
      simp at ht2

/-- Witness for C9: both sort directions at a concrete two-provider
fetch. -/
theorem C9_source_sort_order_witness :
    (({ items := [mapOpenverseImage { id := "1" },
          mapPixabayImage { id := "2" }], total := 1 } :
        FetchResult).items.Pairwise fun x y =>
        x.source = .pixabay → y.source = .pixabay) ∧
    (({ items := [mapPixabayImage { id := "2" },
          mapOpenverseImage { id := "1" }], total := 1 } :
        FetchResult).items.Pairwise fun x y =>
        x.source = .openverse → y.source = .openverse) :=
  ⟨(C9_source_sort_order
      { pixabayApiKey := some "k",
        openverseImagesResp :=
          .ok { results := some [{ id := "1" }], result_count := 1 },
        pixabayImagesResp :=
          .ok { hits := some [{ id := "2" }], totalHits := 1 } }
      { type := .images, query := "q", sortBy := .sourceAsc } {} _
      rfl rfl).1 rfl,
   (C9_source_sort_order
      { pixabayApiKey := some "k",
        openverseImagesResp :=
          .ok { results := some [{ id := "1" }], result_count := 1 },
        pixabayImagesResp :=
          .ok { hits := some [{ id := "2" }], totalHits := 1 } }
      { type := .images, query := "q", sortBy := .sourceDesc } {} _
      rfl rfl).2 rfl⟩

end MediaSearch
